import Mathlib

/-!
Verification of the flow-ide editor adapter: the coverage presenter
(`lib/coverage-view.js`) and the linter module (executable locator, retry
policy, result mapping, spawned-server registry, deactivation).

The JavaScript source is embedded shallowly: the linter's `lint` function is
modelled as a pure function over an explicit list of invocation outcomes (each
list element is what one `exec` call would yield), returning the lint result
together with the per-document cache entry, the spawned-servers registry, the
presenter updates performed, and the number of invocations consumed.
-/

namespace FlowIde

/-- A source position, as in the checker's JSON wire shape. -/
structure Position where
  line : Nat
  column : Nat
deriving DecidableEq

/-- A source span flagged as uncovered (`uncoveredLocations` element). -/
structure Region where
  start : Position
  «end» : Position
deriving DecidableEq

/-- The `expressions` object of the coverage JSON. -/
structure Expressions where
  covered_count : Nat
  uncovered_count : Nat
deriving DecidableEq

/-- `CoverageObject`: the parsed checker coverage report. -/
structure CoverageObject where
  expressions : Expressions
  uncoveredLocations : List Region
deriving DecidableEq

/-- Modelled from the spec: a diagnostic message produced by
`toCoverageLinterMessages` in the missing `helpers` module — one message per
uncovered region, tagged with an informational severity, positions matching
the input span exactly. -/
structure LinterMessage where
  severity : String
  region : Region
deriving DecidableEq

/-- Modelled from the spec: `toCoverageLinterMessages` from the missing
`helpers` module converts a coverage report into a list of diagnostic
messages, one per Region in `uncoveredLocations`. -/
def toCoverageLinterMessages (coverage : CoverageObject) : List LinterMessage :=
  coverage.uncoveredLocations.map fun r => { severity := "info", region := r }

/-- Modelled from the spec: the "initializing" marker text (`INIT_MESSAGE`
from the missing `helpers` module) searched for in invocation error text. -/
def INIT_MESSAGE : String := "flow is still initializing"

/-- Modelled from the spec: the "rechecking" marker text
(`RECHECKING_MESSAGE` from the missing `helpers` module). -/
def RECHECKING_MESSAGE : String := "Rechecking"

/-- Whether `pat` is a leading segment of `l` (character-by-character). -/
def listHasLead : List Char → List Char → Bool
  | [], _ => true
  | _ :: _, [] => false
  | p :: ps, c :: cs => p == c && listHasLead ps cs

/-- Whether `pat` occurs contiguously inside `l`. -/
def listHasInfix (pat : List Char) : List Char → Bool
  | [] => pat.isEmpty
  | l@(_ :: t) => listHasLead pat l || listHasInfix pat t

/-- `containsStr s pat` models JavaScript `s.indexOf(pat) !== -1`. -/
def containsStr (s pat : String) : Bool :=
  listHasInfix pat.toList s.toList

/-- The error value rejected by a failing `exec` promise: its `message` text
and its optional `code` (`'ENOENT'` for a missing binary). -/
structure ExecError where
  message : String
  code : Option String
deriving DecidableEq

/-- One outcome of an `exec` invocation: resolution with a result string
(or `null`, when the invocation was superseded), or rejection with an error. -/
inductive ExecOutcome where
  | ok (result : Option String)
  | err (e : ExecError)
deriving DecidableEq

/-- An error thrown out of `lint` to the caller. -/
inductive LintError where
  /-- `new Error('Unable to find flow executable.')` on ENOENT. -/
  | notFound
  /-- `throw error` — the invoker's error propagated unchanged. -/
  | other (e : ExecError)
  /-- `JSON.parse(result)` threw on the given raw text. -/
  | parseError (raw : String)
deriving DecidableEq

/-- The user-facing message of a thrown lint error. -/
def LintError.userMessage : LintError → String
  | .notFound => "Unable to find `flow` executable."
  | .other e => e.message
  | .parseError _ => "SyntaxError"

/-- What the caller of `lint` observes. -/
inductive LintResult where
  /-- The promise resolved: `some msgs` is a diagnostic list, `none` is the
  literal `null` return. -/
  | value (v : Option (List LinterMessage))
  /-- The promise rejected with a thrown error. -/
  | thrown (e : LintError)
  /-- The supplied outcome list was exhausted while the retry loop was still
  re-invoking (the lint is still retrying; no result observed yet). -/
  | pending
deriving DecidableEq

/-- `true` exactly when the result is a resolved diagnostic list. -/
def LintResult.isSuccess : LintResult → Bool
  | .value (some _) => true
  | _ => false

/-- The user-settable configuration observed by the module. -/
structure Config where
  executablePath : String
  onlyIfAppropriate : Bool
  showUncovered : Bool
deriving DecidableEq

/-- The external environment of a lint call: the `atom-linter` upward file
searches, `Path.dirname`, `JSON.parse` (returning `none` when it would
throw), and whether the status-bar coverage view has been created. -/
structure Env where
  findFlowconfig : String → Option String
  findFlowBin : String → Option String
  dirname : String → String
  parse : String → Option CoverageObject
  hasCoverageView : Bool

/-- Module state touched by a lint call: this document's cache entry in the
per-document `WeakMap`, and the `spawnedServers` set. -/
structure LintState where
  cache : Option CoverageObject
  spawned : List String
deriving DecidableEq

/-- Everything a lint call produces: the caller-visible result, the final
cache entry for the document, the final spawned-servers registry, the
sequence of coverage-view `update` calls performed, and the number of `exec`
invocations consumed. -/
structure LintOutput where
  result : LintResult
  cache : Option CoverageObject
  spawned : List String
  viewUpdates : List CoverageObject
  attempts : Nat
deriving DecidableEq

/-- `Set.prototype.add`: append if not already present. -/
def setAdd (s : List String) (x : String) : List String :=
  if x ∈ s then s else s ++ [x]

/-- The `configFile` binding of a lint call: looked up by upward search only
when `onlyIfAppropriate` is set, otherwise left `undefined`. -/
def configFileOf (cfg : Config) (env : Env) (dir : String) : Option String :=
  if cfg.onlyIfAppropriate then env.findFlowconfig dir else none

/-- The `spawnedServers` registry after one failed invocation:
`if (error.message.indexOf(INIT_MESSAGE) !== -1 && configFile)
spawnedServers.add(Path.dirname(configFile))`. -/
def spawnedAfterError (cfg : Config) (env : Env) (dir : String)
    (spawned : List String) (e : ExecError) : List String :=
  match configFileOf cfg env dir with
  | some cf =>
      if containsStr e.message INIT_MESSAGE then setAdd spawned (env.dirname cf)
      else spawned
  | none => spawned

/-- `getExecutablePath(fileDirectory)`:
`this.executablePath || await findCachedAsync(fileDirectory,
'node_modules/.bin/flow') || 'flow'` (JavaScript `||`, so an empty string
falls through). -/
def getExecutablePath (executablePath : String)
    (findBin : String → Option String) (fileDirectory : String) : String :=
  if executablePath ≠ "" then executablePath
  else
    match findBin fileDirectory with
    | some p => if p ≠ "" then p else "flow"
    | none => "flow"

/-- The linter's `lint` function, run against a list of invocation outcomes:
the head outcome is what the first `exec` yields; the recursive retry
(`return linter.lint(textEditor)`) consumes the tail. Each call re-evaluates
the `onlyIfAppropriate` guard, as the source does on every (re-)entry. An
exhausted outcome list means the retry loop is still running (`pending`). -/
def lint (cfg : Config) (env : Env) (dir : String) :
    LintState → List ExecOutcome → LintOutput
  | st, [] =>
      if cfg.onlyIfAppropriate && (env.findFlowconfig dir).isNone then
        { result := .value (some []), cache := st.cache, spawned := st.spawned,
          viewUpdates := [], attempts := 0 }
      else
        { result := .pending, cache := st.cache, spawned := st.spawned,
          viewUpdates := [], attempts := 0 }
  | st, o :: rest =>
      if cfg.onlyIfAppropriate && (env.findFlowconfig dir).isNone then
        { result := .value (some []), cache := st.cache, spawned := st.spawned,
          viewUpdates := [], attempts := 0 }
      else
        match o with
        | .ok none =>
            { result := .value none, cache := st.cache, spawned := st.spawned,
              viewUpdates := [], attempts := 1 }
        | .ok (some raw) =>
            match env.parse raw with
            | none =>
                { result := .thrown (.parseError raw), cache := st.cache,
                  spawned := st.spawned, viewUpdates := [], attempts := 1 }
            | some coverage =>
                { result := .value (some (if cfg.showUncovered then
                    toCoverageLinterMessages coverage else [])),
                  cache := some coverage, spawned := st.spawned,
                  viewUpdates := if env.hasCoverageView then [coverage] else [],
                  attempts := 1 }
        | .err e =>
            let spawned1 := spawnedAfterError cfg env dir st.spawned e
            if containsStr e.message INIT_MESSAGE ||
                containsStr e.message RECHECKING_MESSAGE then
              let out := lint cfg env dir { cache := st.cache, spawned := spawned1 } rest
              { out with attempts := out.attempts + 1 }
            else if e.code = some "ENOENT" then
              { result := .thrown .notFound, cache := st.cache,
                spawned := spawned1, viewUpdates := [], attempts := 1 }
            else
              { result := .thrown (.other e), cache := st.cache,
                spawned := spawned1, viewUpdates := [], attempts := 1 }

/-- One `exec(executable, ['stop'], { cwd: rootDirectory, ... })` issued at
deactivation. -/
structure StopCommand where
  executable : String
  args : List String
  cwd : String
deriving DecidableEq

/-- `deactivate()`: for every recorded spawned-server root, issue a `stop`
command with the resolved executable (errors are discarded by the source;
the model records the commands issued). -/
def deactivate (executablePath : String)
    (findBin : String → Option String) (spawned : List String) :
    List StopCommand :=
  spawned.map fun rootDirectory =>
    { executable :=
        if executablePath ≠ "" then executablePath
        else
          match findBin rootDirectory with
          | some p => if p ≠ "" then p else "flow"
          | none => "flow",
      args := ["stop"],
      cwd := rootDirectory }

/-- The observable state of the status-bar coverage view element. -/
structure ViewState where
  textContent : String
  tooltipTitle : String
  hidden : Bool
deriving DecidableEq

namespace CoverageView

/-- The percentage computed inside `CoverageView.update`:
`total === 0 ? 0 : Math.round((covered / total) * 100)`.
`Math.round x` is `⌊x + 1/2⌋`; over the exact rationals this is natural
division `(2 * (covered * 100) + total) / (2 * total)`. -/
def percent (covered uncovered : Nat) : Nat :=
  let total := covered + uncovered
  if total = 0 then 0 else (2 * (covered * 100) + total) / (2 * total)

/-- `CoverageView.update(json)`: replace the displayed text, unhide the
element, and install the tooltip. -/
def update (json : CoverageObject) (_st : ViewState) : ViewState :=
  let covered := json.expressions.covered_count
  let uncovered := json.expressions.uncovered_count
  let total := covered + uncovered
  let p := percent covered uncovered
  { textContent := "Flow Coverage: " ++ toString p ++ "%",
    tooltipTitle := "Covered " ++ toString p ++ "% (" ++ toString covered ++
      " of " ++ toString total ++ " expressions)<br>Click to toggle uncovered code",
    hidden := false }

/-- `CoverageView.reset()`: hide the element and clear its text. -/
def reset (st : ViewState) : ViewState :=
  { st with hidden := true, textContent := "" }

end CoverageView

/-- A sample parsed coverage report used for concrete evaluations. -/
def covSample : CoverageObject :=
  { expressions := { covered_count := 3, uncovered_count := 1 },
    uncoveredLocations := [{ start := { line := 1, column := 0 },
                             «end» := { line := 1, column := 5 } }] }

/-- A configuration with `onlyIfAppropriate` and `showUncovered` both off. -/
def cfgA : Config := { executablePath := "", onlyIfAppropriate := false, showUncovered := false }

/-- A configuration with `onlyIfAppropriate` and `showUncovered` both on. -/
def cfgB : Config := { executablePath := "", onlyIfAppropriate := true, showUncovered := true }

/-- An environment where a project config is found and parsing succeeds. -/
def envA : Env :=
  { findFlowconfig := fun _ => some "/p/.flowconfig",
    findFlowBin := fun _ => some "/p/node_modules/.bin/flow",
    dirname := fun _ => "/p",
    parse := fun _ => some covSample,
    hasCoverageView := true }

/-- An environment where nothing is found and parsing fails. -/
def envB : Env :=
  { findFlowconfig := fun _ => none,
    findFlowBin := fun _ => none,
    dirname := fun _ => "/p",
    parse := fun _ => none,
    hasCoverageView := false }

theorem mem_setAdd_self (s : List String) (x : String) : x ∈ setAdd s x := by
  unfold setAdd
  split
  · assumption
  · simp

theorem mem_setAdd_of_mem {s : List String} {y : String} (x : String)
    (h : y ∈ s) : y ∈ setAdd s x := by
  unfold setAdd
  split
  · exact h
  · simp [h]

theorem mem_spawnedAfterError (cfg : Config) (env : Env) (dir : String)
    {spawned : List String} {y : String} (e : ExecError) (h : y ∈ spawned) :
    y ∈ spawnedAfterError cfg env dir spawned e := by
  unfold spawnedAfterError
  split
  · split
    · exact mem_setAdd_of_mem _ h
    · exact h
  · exact h

theorem lint_spawned_mono (cfg : Config) (env : Env) (dir : String) :
    ∀ (outcomes : List ExecOutcome) (st : LintState) (x : String),
      x ∈ st.spawned → x ∈ (lint cfg env dir st outcomes).spawned := by
  intro outcomes
  induction outcomes with
  | nil =>
      intro st x hx
      simp only [lint]
      split <;> exact hx
  | cons o rest ih =>
      intro st x hx
      simp only [lint]
      split
      · exact hx
      · match o with
        | .ok none => exact hx
        | .ok (some raw) =>
            dsimp only
            split <;> exact hx
        | .err e =>
            dsimp only
            split
            · exact ih _ x (mem_spawnedAfterError cfg env dir e hx)
            · split <;> exact mem_spawnedAfterError cfg env dir e hx

/-- Claim C1: the percentage computed by the presenter's update operation is
the nearest-integer rounding of covered / (covered + uncovered) × 100, is 0
when the total is 0, and takes the values 0, 75, 25, 33 at the four listed
inputs. -/
theorem c1_percent_of_update : ∀ covered uncovered : Nat,
    ((CoverageView.percent covered uncovered : ℤ) =
      if covered + uncovered = 0 then 0
      else round ((covered * 100 : ℚ) / (covered + uncovered)))
    ∧ CoverageView.percent 0 0 = 0 ∧ CoverageView.percent 3 1 = 75
    ∧ CoverageView.percent 1 3 = 25 ∧ CoverageView.percent 1 2 = 33 := by
  intro c u
  refine ⟨?_, by decide, by decide, by decide, by decide⟩
  by_cases h : c + u = 0
  · simp [CoverageView.percent, h]
  · rw [if_neg h]
    have ht : ((c : ℚ) + (u : ℚ)) ≠ 0 := by
      intro hq
      apply h
      exact_mod_cast hq
    rw [round_eq]
    have key : (c * 100 : ℚ) / ((c : ℚ) + (u : ℚ)) + 1 / 2
        = (((2 * (c * 100) + (c + u) : ℕ) : ℤ) : ℚ) / ((2 * (c + u) : ℕ) : ℚ) := by
      push_cast
      field_simp
      ring
    rw [key, Rat.floor_intCast_div_natCast]
    simp only [CoverageView.percent, if_neg h]
    push_cast [Int.ofNat_tdiv]
    norm_num

/-- Claim C2: an invocation failure whose text contains the initializing or
rechecking marker makes lint immediately re-run the full invocation on the
remaining outcomes with one more attempt counted, with no retry limit; with
an invoker that fails once with the initializing marker and then succeeds,
exactly two invocations occur and the caller sees only the final success. -/
theorem c2_transient_busy_retry (cfg : Config) (env : Env) (dir : String)
    (st : LintState) (e : ExecError) (rest : List ExecOutcome)
    (hm : containsStr e.message INIT_MESSAGE = true ∨
          containsStr e.message RECHECKING_MESSAGE = true)
    (hp : (cfg.onlyIfAppropriate && (env.findFlowconfig dir).isNone) = false) :
    ((lint cfg env dir st (.err e :: rest)).result =
        (lint cfg env dir
          { cache := st.cache, spawned := spawnedAfterError cfg env dir st.spawned e }
          rest).result
      ∧ (lint cfg env dir st (.err e :: rest)).attempts =
        (lint cfg env dir
          { cache := st.cache, spawned := spawnedAfterError cfg env dir st.spawned e }
          rest).attempts + 1)
    ∧ ∀ raw coverage, env.parse raw = some coverage →
        (lint cfg env dir st [.err e, .ok (some raw)]).attempts = 2
        ∧ (lint cfg env dir st [.err e, .ok (some raw)]).result =
            .value (some (if cfg.showUncovered then toCoverageLinterMessages coverage
              else [])) := by
  have hcond : (containsStr e.message INIT_MESSAGE ||
      containsStr e.message RECHECKING_MESSAGE) = true := by
    rcases hm with h | h <;> simp [h]
  constructor
  · constructor <;> simp [lint, hp, hcond]
  · intro raw coverage hparse
    constructor <;> simp [lint, hp, hcond, hparse]

/-- Witness for claim C2 at a concrete one-failure-then-success invoker. -/
theorem c2_retry_witness :
    containsStr INIT_MESSAGE INIT_MESSAGE = true
    ∧ (lint cfgA envA "/d" ⟨none, []⟩
        [.err ⟨INIT_MESSAGE, none⟩, .ok (some "r")]).attempts = 2
    ∧ (lint cfgA envA "/d" ⟨none, []⟩
        [.err ⟨INIT_MESSAGE, none⟩, .ok (some "r")]).result = .value (some []) :=
  ⟨by decide,
   ((c2_transient_busy_retry cfgA envA "/d" ⟨none, []⟩ ⟨INIT_MESSAGE, none⟩
      [.ok (some "r")] (Or.inl (by decide)) (by decide)).2 "r" covSample rfl).1,
   ((c2_transient_busy_retry cfgA envA "/d" ⟨none, []⟩ ⟨INIT_MESSAGE, none⟩
      [.ok (some "r")] (Or.inl (by decide)) (by decide)).2 "r" covSample rfl).2⟩

/-- Claim C3: a successful parse always updates the cache; with showUncovered
off the diagnostic list is empty, with it on there is exactly one diagnostic
per uncovered region, spans preserved. -/
theorem c3_showUncovered_gating (cfg : Config) (env : Env) (dir : String)
    (st : LintState) (raw : String) (rest : List ExecOutcome)
    (coverage : CoverageObject)
    (hp : (cfg.onlyIfAppropriate && (env.findFlowconfig dir).isNone) = false)
    (hparse : env.parse raw = some coverage) :
    (lint cfg env dir st (.ok (some raw) :: rest)).cache = some coverage
    ∧ (cfg.showUncovered = false →
        (lint cfg env dir st (.ok (some raw) :: rest)).result = .value (some []))
    ∧ (cfg.showUncovered = true →
        (lint cfg env dir st (.ok (some raw) :: rest)).result =
          .value (some (toCoverageLinterMessages coverage))
        ∧ (toCoverageLinterMessages coverage).length =
            coverage.uncoveredLocations.length
        ∧ (toCoverageLinterMessages coverage).map LinterMessage.region =
            coverage.uncoveredLocations) := by
  refine ⟨by simp [lint, hp, hparse], fun hs => by simp [lint, hp, hparse, hs],
    fun hs => ⟨by simp [lint, hp, hparse, hs], by simp [toCoverageLinterMessages],
      by simp [toCoverageLinterMessages, Function.comp_def]⟩⟩

/-- Witness for claim C3 at a concrete parsed report. -/
theorem c3_gating_witness :
    Env.parse envA "r" = some covSample
    ∧ (lint cfgB envA "/d" ⟨none, []⟩ [.ok (some "r")]).cache = some covSample
    ∧ (lint cfgB envA "/d" ⟨none, []⟩ [.ok (some "r")]).result =
        .value (some (toCoverageLinterMessages covSample)) :=
  ⟨rfl,
   (c3_showUncovered_gating cfgB envA "/d" ⟨none, []⟩ "r" [] covSample
      (by decide) rfl).1,
   ((c3_showUncovered_gating cfgB envA "/d" ⟨none, []⟩ "r" [] covSample
      (by decide) rfl).2.2 rfl).1⟩

/-- Claim C4 (amended): an invocation failure carrying the ENOENT code and
neither transient-busy marker raises the fatal executable-not-found error in
a single attempt; a failure with neither marker and no ENOENT code is
propagated to the caller unchanged. -/
theorem c4_enoent_not_found (cfg : Config) (env : Env) (dir : String)
    (st : LintState) (e : ExecError) (rest : List ExecOutcome)
    (hp : (cfg.onlyIfAppropriate && (env.findFlowconfig dir).isNone) = false)
    (hm : containsStr e.message INIT_MESSAGE = false)
    (hr : containsStr e.message RECHECKING_MESSAGE = false) :
    (e.code = some "ENOENT" →
        (lint cfg env dir st (.err e :: rest)).result = .thrown .notFound
        ∧ LintError.userMessage .notFound = "Unable to find `flow` executable."
        ∧ (lint cfg env dir st (.err e :: rest)).attempts = 1)
    ∧ (e.code ≠ some "ENOENT" →
        (lint cfg env dir st (.err e :: rest)).result = .thrown (.other e)) := by
  constructor
  · intro hc
    refine ⟨by simp [lint, hp, hm, hr, hc], rfl, by simp [lint, hp, hm, hr, hc]⟩
  · intro hc
    simp [lint, hp, hm, hr, hc]

/-- Counterexample to claim C4 as stated: an ENOENT failure whose error text
also contains the initializing marker is retried (here leaving the retry loop
pending), not surfaced as the executable-not-found error. -/
theorem c4_enoent_counterexample :
    (ExecError.code { message := INIT_MESSAGE, code := some "ENOENT" } = some "ENOENT")
    ∧ (lint cfgA envB "/d" { cache := none, spawned := [] }
        [.err { message := INIT_MESSAGE, code := some "ENOENT" }]).result ≠
        .thrown .notFound
    ∧ (lint cfgA envB "/d" { cache := none, spawned := [] }
        [.err { message := INIT_MESSAGE, code := some "ENOENT" }]).result = .pending := by
  decide

/-- Witness for claim C4's amended theorem at a concrete ENOENT failure. -/
theorem c4_not_found_witness :
    (lint cfgA envB "/d" ⟨none, []⟩
      [.err ⟨"spawn flow ENOENT", some "ENOENT"⟩]).result = .thrown .notFound :=
  ((c4_enoent_not_found cfgA envB "/d" ⟨none, []⟩
      ⟨"spawn flow ENOENT", some "ENOENT"⟩ [] (by decide) (by decide) (by decide)).1
    rfl).1

/-- Claim C5: the executable locator returns the non-empty configured path
first, else the project-local binary found by the upward search when one
exists, else the literal fallback command name. It is a total function, so it
never throws. -/
theorem c5_executable_resolution (executablePath : String)
    (findBin : String → Option String) (dir : String) :
    (executablePath ≠ "" → getExecutablePath executablePath findBin dir = executablePath)
    ∧ (∀ p, executablePath = "" → findBin dir = some p → p ≠ "" →
        getExecutablePath executablePath findBin dir = p)
    ∧ (executablePath = "" → findBin dir = none →
        getExecutablePath executablePath findBin dir = "flow") := by
  refine ⟨fun h => by simp [getExecutablePath, h], fun p h1 h2 h3 => ?_,
    fun h1 h2 => ?_⟩
  · simp [getExecutablePath, h1, h2, h3]
  · simp [getExecutablePath, h1, h2]

/-- Witness for claim C5 at an empty configuration and empty filesystem. -/
theorem c5_resolution_witness :
    getExecutablePath "" (fun _ => none) "/d" = "flow" :=
  (c5_executable_resolution "" (fun _ => none) "/d").2.2 rfl rfl

/-- Claim C6: the cache entry after a lint call is either unchanged, or is
exactly the report of that call's successful parse; any call whose result is
not a resolved diagnostic list (thrown, null, or still retrying) leaves the
cache entry unchanged. -/
theorem c6_cache_invariant (cfg : Config) (env : Env) (dir : String) :
    ∀ (outcomes : List ExecOutcome) (st : LintState),
      ((lint cfg env dir st outcomes).result.isSuccess = false →
        (lint cfg env dir st outcomes).cache = st.cache)
      ∧ ((lint cfg env dir st outcomes).cache = st.cache
        ∨ ∃ coverage, (lint cfg env dir st outcomes).cache = some coverage
            ∧ (lint cfg env dir st outcomes).result =
                .value (some (if cfg.showUncovered then
                  toCoverageLinterMessages coverage else []))
            ∧ ∃ raw, env.parse raw = some coverage
                ∧ ExecOutcome.ok (some raw) ∈ outcomes) := by
  intro outcomes
  induction outcomes with
  | nil =>
      intro st
      constructor
      · intro _
        simp only [lint]
        split <;> rfl
      · left
        simp only [lint]
        split <;> rfl
  | cons o rest ih =>
      intro st
      by_cases hb : (cfg.onlyIfAppropriate && (env.findFlowconfig dir).isNone) = true
      · constructor
        · intro _
          simp [lint, hb]
        · left
          simp [lint, hb]
      · rw [Bool.not_eq_true] at hb
        match o with
        | .ok none =>
            constructor
            · intro _
              simp [lint, hb]
            · left
              simp [lint, hb]
        | .ok (some raw) =>
            match hparse : env.parse raw with
            | none =>
                constructor
                · intro _
                  simp [lint, hb, hparse]
                · left
                  simp [lint, hb, hparse]
            | some coverage =>
                constructor
                · intro hfail
                  exfalso
                  simp [lint, hb, hparse, LintResult.isSuccess] at hfail
                · right
                  refine ⟨coverage, by simp [lint, hb, hparse],
                    by simp [lint, hb, hparse], raw, hparse, List.mem_cons_self _ _⟩
        | .err e =>
            by_cases hmark : (containsStr e.message INIT_MESSAGE ||
                containsStr e.message RECHECKING_MESSAGE) = true
            · have hres : (lint cfg env dir st (.err e :: rest)).result =
                  (lint cfg env dir
                    { cache := st.cache,
                      spawned := spawnedAfterError cfg env dir st.spawned e } rest).result := by
                simp [lint, hb, hmark]
              have hcache : (lint cfg env dir st (.err e :: rest)).cache =
                  (lint cfg env dir
                    { cache := st.cache,
                      spawned := spawnedAfterError cfg env dir st.spawned e } rest).cache := by
                simp [lint, hb, hmark]
              obtain ⟨ih1, ih2⟩ :=
                ih ⟨st.cache, spawnedAfterError cfg env dir st.spawned e⟩
              constructor
              · intro hfail
                rw [hres] at hfail
                rw [hcache]
                exact ih1 hfail
              · rcases ih2 with h | ⟨coverage, h1, h2, raw, h3, h4⟩
                · left
                  rw [hcache]
                  exact h
                · right
                  exact ⟨coverage, hcache ▸ h1, hres ▸ h2, raw, h3,
                    List.mem_cons_of_mem _ h4⟩
            · rw [Bool.not_eq_true] at hmark
              by_cases hc : e.code = some "ENOENT"
              · constructor
                · intro _
                  simp [lint, hb, hmark, hc]
                · left
                  simp [lint, hb, hmark, hc]
              · constructor
                · intro _
                  simp [lint, hb, hmark, hc]
                · left
                  simp [lint, hb, hmark, hc]

/-- Witness for claim C6 at a concrete failing lint call. -/
theorem c6_cache_witness :
    (lint cfgA envB "/d" ⟨none, []⟩ [.err ⟨"boom", none⟩]).result.isSuccess = false
    ∧ (lint cfgA envB "/d" ⟨none, []⟩ [.err ⟨"boom", none⟩]).cache = none :=
  ⟨by decide,
   (c6_cache_invariant cfgA envB "/d" [.err ⟨"boom", none⟩] ⟨none, []⟩).1 (by decide)⟩

/-- Claim C7 (amended): the presenter's update operation sets the displayed
text to the literal prefix "Flow Coverage: " followed by the percent and a
percent sign, sets a tooltip reading "Covered .. of .. expressions" followed
by a click-to-toggle hint, and unhides the element. -/
theorem c7_view_text : ∀ (json : CoverageObject) (st : ViewState),
    (CoverageView.update json st).textContent =
      "Flow Coverage: " ++ toString (CoverageView.percent
        json.expressions.covered_count json.expressions.uncovered_count) ++ "%"
    ∧ (CoverageView.update json st).tooltipTitle =
      "Covered " ++ toString (CoverageView.percent
        json.expressions.covered_count json.expressions.uncovered_count) ++
      "% (" ++ toString json.expressions.covered_count ++ " of " ++
      toString (json.expressions.covered_count + json.expressions.uncovered_count) ++
      " expressions)<br>Click to toggle uncovered code"
    ∧ (CoverageView.update json st).hidden = false :=
  fun _ _ => ⟨rfl, rfl, rfl⟩

/-- Counterexample to claim C7 as stated: at a covered=3, uncovered=1 report
the displayed text is not exactly "Coverage: 75 percent" and the tooltip is
not exactly "Covered 75 percent (3 of 4)". -/
theorem c7_view_text_counterexample :
    (CoverageView.update covSample
      { textContent := "", tooltipTitle := "", hidden := true }).textContent
      ≠ "Coverage: 75%"
    ∧ (CoverageView.update covSample
      { textContent := "", tooltipTitle := "", hidden := true }).tooltipTitle
      ≠ "Covered 75% (3 of 4)" := by
  decide

/-- Claim C8: with onlyIfAppropriate on and no project config file found,
lint returns the empty diagnostic list without consuming any invocation and
without touching any state. -/
theorem c8_only_if_appropriate (cfg : Config) (env : Env) (dir : String)
    (st : LintState) (outcomes : List ExecOutcome)
    (hb : cfg.onlyIfAppropriate = true) (hc : env.findFlowconfig dir = none) :
    lint cfg env dir st outcomes =
      { result := .value (some []), cache := st.cache, spawned := st.spawned,
        viewUpdates := [], attempts := 0 } := by
  cases outcomes <;> simp [lint, hb, hc]

/-- Witness for claim C8 at a concrete environment with no config file. -/
theorem c8_appropriate_witness :
    lint cfgB envB "/d" ⟨none, []⟩ [.ok (some "r")] =
      { result := .value (some []), cache := none, spawned := [],
        viewUpdates := [], attempts := 0 } :=
  c8_only_if_appropriate cfgB envB "/d" ⟨none, []⟩ [.ok (some "r")] rfl rfl

/-- Claim C9 (amended): when a project config file was discovered (so
onlyIfAppropriate is on and the upward search found one) and the invocation
fails with the initializing marker, the directory containing the config file
is recorded in the spawned-servers registry; deactivation issues a stop
command for every recorded root. -/
theorem c9_spawned_server_recording (cfg : Config) (env : Env) (dir : String)
    (st : LintState) (e : ExecError) (rest : List ExecOutcome) (cf : String)
    (hcf : configFileOf cfg env dir = some cf)
    (hm : containsStr e.message INIT_MESSAGE = true) :
    env.dirname cf ∈ (lint cfg env dir st (.err e :: rest)).spawned
    ∧ ∀ (executablePath : String) (findBin : String → Option String)
        (root : String) (spawnedList : List String), root ∈ spawnedList →
        ∃ c ∈ deactivate executablePath findBin spawnedList,
          c.cwd = root ∧ c.args = ["stop"] := by
  constructor
  · have ho : cfg.onlyIfAppropriate = true := by
      unfold configFileOf at hcf
      by_contra hno
      rw [Bool.not_eq_true] at hno
      simp [hno] at hcf
    have hfc : env.findFlowconfig dir = some cf := by
      unfold configFileOf at hcf
      simpa [ho] using hcf
    have hb : (cfg.onlyIfAppropriate && (env.findFlowconfig dir).isNone) = false := by
      simp [ho, hfc]
    have hmark : (containsStr e.message INIT_MESSAGE ||
        containsStr e.message RECHECKING_MESSAGE) = true := by
      simp [hm]
    have hspawn : (lint cfg env dir st (.err e :: rest)).spawned =
        (lint cfg env dir
          ⟨st.cache, spawnedAfterError cfg env dir st.spawned e⟩ rest).spawned := by
      simp [lint, hb, hmark]
    rw [hspawn]
    apply lint_spawned_mono
    show env.dirname cf ∈ spawnedAfterError cfg env dir st.spawned e
    unfold spawnedAfterError
    rw [hcf]
    simp only [hm, if_true]
    exact mem_setAdd_self _ _
  · intro executablePath findBin root spawnedList hroot
    refine ⟨_, List.mem_map_of_mem _ hroot, rfl, rfl⟩

/-- Counterexample to claim C9 as stated: with onlyIfAppropriate off, an
invocation failure carrying the initializing marker records nothing in the
spawned-servers registry, because the source guards the recording on the
configFile binding that only the onlyIfAppropriate path assigns. -/
theorem c9_recording_counterexample :
    containsStr INIT_MESSAGE INIT_MESSAGE = true
    ∧ Config.onlyIfAppropriate cfgA = false
    ∧ (lint cfgA envB "/d" { cache := none, spawned := [] }
        [.err { message := INIT_MESSAGE, code := none }]).spawned = [] := by
  decide

/-- Witness for claim C9's amended theorem at a concrete configuration with
a discovered config file. -/
theorem c9_recording_witness :
    "/p" ∈ (lint cfgB envA "/d" ⟨none, []⟩ [.err ⟨INIT_MESSAGE, none⟩]).spawned
    ∧ ∃ c ∈ deactivate "" (fun _ => none) ["/p"], c.cwd = "/p" ∧ c.args = ["stop"] :=
  ⟨(c9_spawned_server_recording cfgB envA "/d" ⟨none, []⟩ ⟨INIT_MESSAGE, none⟩
      [] "/p/.flowconfig" rfl (by decide)).1,
   (c9_spawned_server_recording cfgB envA "/d" ⟨none, []⟩ ⟨INIT_MESSAGE, none⟩
      [] "/p/.flowconfig" rfl (by decide)).2 "" (fun _ => none) "/p" ["/p"]
      (by decide)⟩

/-- Claim C10: a null invocation result makes lint return null, with the
cache entry, the spawned-servers registry and the presenter untouched, after
that single invocation. -/
theorem c10_null_result_frame (cfg : Config) (env : Env) (dir : String)
    (st : LintState) (rest : List ExecOutcome)
    (hp : (cfg.onlyIfAppropriate && (env.findFlowconfig dir).isNone) = false) :
    lint cfg env dir st (.ok none :: rest) =
      { result := .value none, cache := st.cache, spawned := st.spawned,
        viewUpdates := [], attempts := 1 } := by
  simp [lint, hp]

/-- Witness for claim C10 at a concrete superseded invocation. -/
theorem c10_null_witness :
    lint cfgA envB "/d" ⟨none, []⟩ [.ok none] =
      { result := .value none, cache := none, spawned := [],
        viewUpdates := [], attempts := 1 } :=
  c10_null_result_frame cfgA envB "/d" ⟨none, []⟩ [] (by decide)

end FlowIde
